import Mathlib

/-!
Verification of the aerion-home voice assistant core: the audio segmentation
loop (`audio_in.py`), the speech-output helpers (`speak.py`), and the
conversation state machine (`assistant.py`), shallowly embedded from the
Python sources.  Machine integers are modelled as `Nat`; time is modelled in
integer milliseconds; external collaborators (VAD classifier, transcription
API, LLM handler) are oracles passed in as booleans / functions / event data.
-/

namespace AerionHome

/-! ## Audio segmentation: `capture_audio_stream` (audio_in.py, lines 103-184)

One loop iteration reads one 30 ms microphone block (`frame_duration_ms = 30`,
line 117).  A frame is abstracted by the identity of its PCM bytes (`data`),
its scaled RMS energy (`rms`, standing for `_rms(block) / threshold` units) and
the webrtcvad verdict (`vad`).  Elapsed wall-clock time at the top of the loop
is `30 * framesRead` milliseconds, since exactly one 30 ms block is consumed
per iteration. -/

/-- One microphone block as read at audio_in.py line 140: `data` abstracts the
PCM bytes of the block, `rms` is its (scaled) RMS energy and `vad` the
webrtcvad speech verdict for the block. -/
structure Frame where
  data : Nat
  rms : Nat
  vad : Bool
deriving DecidableEq, Repr

/-- Speech classification of a frame (audio_in.py, lines 142-146): the frame
counts as speech when the RMS energy reaches the gate threshold AND the VAD
classifies it as speech (`if _rms(...) >= rms_threshold: if vad.is_speech(...)`). -/
def classify (thr : Nat) (f : Frame) : Bool :=
  decide (thr ≤ f.rms) && f.vad

/-- Append to the bounded pre-roll deque (`deque(maxlen=...)`, audio_in.py
line 122): push the new element on the right, evicting from the left down to
the capacity. -/
def pushCap (cap : Nat) (buf : List Nat) (x : Nat) : List Nat :=
  let grown := buf ++ [x]
  if cap < grown.length then grown.drop (grown.length - cap) else grown

/-- The last `n` elements of a list (the contents of a `maxlen=n` deque after
pushing the whole list through it). -/
def lastN (n : Nat) (l : List Nat) : List Nat :=
  l.drop (l.length - n)

/-- Mutable locals of the `capture_audio_stream` loop (audio_in.py,
lines 121-127): `pre_buffer`, `recording_started`, `chunks`, `silent_frames`,
plus `framesRead` counting loop iterations (so that `30 * framesRead` is the
elapsed time `time.time() - start_time` in milliseconds at the loop top). -/
structure RecState where
  preBuffer : List Nat
  recordingStarted : Bool
  chunks : List Nat
  silentFrames : Nat
  framesRead : Nat
deriving DecidableEq, Repr

/-- Outcome of `capture_audio_stream`: `utterance` is the concatenated chunk
list returned at line 184, `timeout` is the `return None` at line 138. -/
inductive RecEvent where
  | utterance (chunks : List Nat)
  | timeout
deriving DecidableEq, Repr

/-- The pre-start timeout test at audio_in.py line 136:
`if not recording_started and time.time() - start_time > max_seconds`. -/
def timeoutDue (maxMs : Nat) (s : RecState) : Bool :=
  !s.recordingStarted && decide (30 * s.framesRead > maxMs)

/-- The `capture_audio_stream` loop (audio_in.py, lines 134-184) over an
explicit list of frames: `maxMs` is `max_seconds` in milliseconds, `silM` is
`frames_needed_for_silence` (line 119), `preCap` the pre-roll deque capacity
(line 122), `thr` the RMS gate threshold.  `none` means the frame list ran out
while the loop was still waiting (the live stream never ends, so this is the
"still listening" case).  The `if not chunks: return None` at line 177 is
unreachable: the loop only breaks while recording, with a non-empty chunk
list.  The `stop_speaking()` call at line 154 is a cross-module side effect on
speak.py and does not touch the recorder's own state. -/
def captureRun (maxMs silM preCap thr : Nat) : RecState → List Frame → Option RecEvent
  | s, [] =>
    if timeoutDue maxMs s then some RecEvent.timeout else none
  | s, f :: rest =>
    if timeoutDue maxMs s then some RecEvent.timeout
    else
      if classify thr f then
        let s1 :=
          if s.recordingStarted then s
          else { s with recordingStarted := true,
                        chunks := s.chunks ++ s.preBuffer,
                        preBuffer := [] }
        captureRun maxMs silM preCap thr
          { s1 with chunks := s1.chunks ++ [f.data], silentFrames := 0,
                    framesRead := s.framesRead + 1 } rest
      else
        if !s.recordingStarted then
          captureRun maxMs silM preCap thr
            { s with preBuffer := pushCap preCap s.preBuffer f.data,
                     framesRead := s.framesRead + 1 } rest
        else
          let s2 := { s with chunks := s.chunks ++ [f.data],
                             silentFrames := s.silentFrames + 1,
                             framesRead := s.framesRead + 1 }
          if silM ≤ s2.silentFrames then some (RecEvent.utterance s2.chunks)
          else captureRun maxMs silM preCap thr s2 rest

/-- Initial recorder state (audio_in.py, lines 121-127). -/
def initRecState : RecState :=
  { preBuffer := [], recordingStarted := false, chunks := [],
    silentFrames := 0, framesRead := 0 }

/-- One whole `capture_audio_stream` call on a given frame stream. -/
def captureStream (maxMs silM preCap thr : Nat) (frames : List Frame) : Option RecEvent :=
  captureRun maxMs silM preCap thr initRecState frames

/-- Derivation of `frames_needed_for_silence` (audio_in.py line 119):
`int(silence_duration * 1000 / frame_duration_ms)` with 30 ms frames. -/
def framesNeededForSilence (silenceMs : Nat) : Nat :=
  silenceMs / 30

/-- Derivation of the pre-roll capacity (audio_in.py line 122):
`int(0.5 * fs / frame_length)`; 16 frames for fs = 16000 and 480-sample
frames. -/
def preBufferCapacity (fs frameLength : Nat) : Nat :=
  fs / (2 * frameLength)

/-! ### C5: no timeout once recording has started -/

/-- Once `recording_started` is set it is never cleared, and the timeout test
(line 136) is guarded by `not recording_started`; hence from any recording
state the loop can only emit an utterance or keep listening. -/
theorem captureRun_started_ne_timeout (maxMs silM preCap thr : Nat) :
    ∀ (frames : List Frame) (s : RecState), s.recordingStarted = true →
      captureRun maxMs silM preCap thr s frames ≠ some RecEvent.timeout := by
  intro frames
  induction frames with
  | nil =>
    intro s hs
    simp [captureRun, timeoutDue, hs]
  | cons f rest ih =>
    intro s hs
    by_cases hc : classify thr f
    · simp only [captureRun, timeoutDue, hs, hc, Bool.not_true, Bool.false_and,
        Bool.false_eq_true, if_false, if_true]
      exact ih _ rfl
    · by_cases hsil : silM ≤ s.silentFrames + 1
      · simp [captureRun, timeoutDue, hs, hc, hsil]
      · simp only [captureRun, timeoutDue, hs, hc, hsil, Bool.not_true, Bool.false_and,
          Bool.false_eq_true, if_false, if_true]
        exact ih _ rfl

/-- C5: for every frame sequence, once recording has started the segment
recorder never emits Timeout; the maximum-listen-duration check applies only
before start-of-speech, and after start only the M-consecutive-silence rule
terminates the capture. -/
theorem c5_no_timeout_after_start (maxMs silM preCap thr : Nat)
    (frames : List Frame) (s : RecState) (h : s.recordingStarted = true) :
    captureRun maxMs silM preCap thr s frames ≠ some RecEvent.timeout :=
  captureRun_started_ne_timeout maxMs silM preCap thr frames s h

/-- Witness for C5: a recording state whose elapsed time is far past the
maximum wait still does not time out on a silent frame. -/
theorem c5_no_timeout_after_start_witness :
    captureRun 10 2 16 1
      { preBuffer := [], recordingStarted := true, chunks := [5],
        silentFrames := 0, framesRead := 999 }
      [{ data := 0, rms := 0, vad := false }] ≠ some RecEvent.timeout :=
  c5_no_timeout_after_start 10 2 16 1
    [{ data := 0, rms := 0, vad := false }]
    { preBuffer := [], recordingStarted := true, chunks := [5],
      silentFrames := 0, framesRead := 999 } rfl

/-! ### C2: start-of-utterance rule and timeout

The source commits to recording on a single speech-classified frame
(audio_in.py, lines 148-151: `if is_speech: if not recording_started:
recording_started = True`), so the claimed K-consecutive-speech-frames rule
(K ≈ 3) does not hold: a lone speech frame already starts an utterance. -/

/-- A stream with exactly one speech-classified frame followed by silence. -/
def c2Frames : List Frame :=
  [{ data := 10, rms := 5, vad := true },
   { data := 11, rms := 0, vad := false },
   { data := 12, rms := 0, vad := false }]

/-- Counterexample to C2 as stated: in `c2Frames` only one frame is
speech-classified (so fewer than K = 3 consecutive speech frames ever occur),
yet `capture_audio_stream` emits an Utterance rather than only a Timeout,
because the code starts recording on the very first speech frame. -/
theorem c2_counterexample :
    c2Frames.countP (classify 1) = 1 ∧
    captureStream 9000 2 16 1 c2Frames =
      some (RecEvent.utterance [10, 11, 12]) := by
  decide

/-- With no speech-classified frame at all, the recorder never starts
recording: it keeps filling the pre-roll buffer and returns Timeout exactly
when the elapsed time `30 * framesRead` ms exceeds the maximum wait
(audio_in.py line 136), and nothing otherwise. -/
theorem captureRun_all_silent (maxMs silM preCap thr : Nat) :
    ∀ (frames : List Frame) (s : RecState),
      (∀ f ∈ frames, classify thr f = false) → s.recordingStarted = false →
      captureRun maxMs silM preCap thr s frames =
        (if 30 * (s.framesRead + frames.length) > maxMs
         then some RecEvent.timeout else none) := by
  intro frames
  induction frames with
  | nil =>
    intro s _ hs
    simp [captureRun, timeoutDue, hs]
  | cons f rest ih =>
    intro s hall hs
    have hf : classify thr f = false := hall f (by simp)
    have hrest : ∀ g ∈ rest, classify thr g = false := by
      intro g hg; exact hall g (by simp [hg])
    by_cases htm : 30 * s.framesRead > maxMs
    · simp only [captureRun, timeoutDue, hs, htm]
      simp [htm]
      omega
    · have hstep : captureRun maxMs silM preCap thr s (f :: rest) =
          captureRun maxMs silM preCap thr
            { s with preBuffer := pushCap preCap s.preBuffer f.data,
                     framesRead := s.framesRead + 1 } rest := by
        simp [captureRun, timeoutDue, hs, htm, hf]
      have hrec := ih { s with preBuffer := pushCap preCap s.preBuffer f.data,
                               framesRead := s.framesRead + 1 } hrest (by simp [hs])
      rw [hstep, hrec]
      have harith : s.framesRead + 1 + rest.length = s.framesRead + (f :: rest).length := by
        simp only [List.length_cons]; omega
      rw [harith]

/-- C2 (amended): the code requires only a single speech-classified frame to
start recording (K = 1, not K ≈ 3).  For every frame sequence in which no
speech-classified frame ever occurs, no Utterance is ever emitted, and once
the configured maximum wait elapses without recording having started, a
Timeout is emitted. -/
theorem c2_single_frame_start (maxMs silM preCap thr : Nat) (frames : List Frame)
    (hall : ∀ f ∈ frames, classify thr f = false) :
    (∀ u, captureStream maxMs silM preCap thr frames ≠ some (RecEvent.utterance u)) ∧
    (30 * frames.length > maxMs →
      captureStream maxMs silM preCap thr frames = some RecEvent.timeout) := by
  have h := captureRun_all_silent maxMs silM preCap thr frames initRecState hall rfl
  rw [show initRecState.framesRead = 0 from rfl, Nat.zero_add] at h
  unfold captureStream
  rw [h]
  constructor
  · intro u
    by_cases htm : 30 * frames.length > maxMs <;> simp [htm]
  · intro htm
    simp [htm]

/-- Witness frames for the amended C2: four silent frames. -/
def c2SilentFrames : List Frame :=
  List.replicate 4 { data := 0, rms := 0, vad := false }

/-- Witness for the amended C2 at a concrete input: with a 50 ms maximum wait,
four silent 30 ms frames yield no Utterance and a Timeout. -/
theorem c2_single_frame_start_witness :
    (∀ u, captureStream 50 2 16 1 c2SilentFrames ≠ some (RecEvent.utterance u)) ∧
    (30 * c2SilentFrames.length > 50 →
      captureStream 50 2 16 1 c2SilentFrames = some RecEvent.timeout) :=
  c2_single_frame_start 50 2 16 1 c2SilentFrames (by decide)

/-! ### C3: exact shape of an emitted utterance

Helper list lemmas about the bounded pre-roll deque, then a phase-by-phase
characterization of the recording loop: pre-roll phase, start-of-speech step,
in-recording phase, and the final M-consecutive-silence emission. -/

/-- Dropping a prefix of the first list does not change the last `cap`
elements of the concatenation, as long as at least `cap` elements remain. -/
theorem lastN_drop_append (cap : Nat) (T l : List Nat) (d : Nat)
    (h : d + cap ≤ T.length) :
    lastN cap (T.drop d ++ l) = lastN cap (T ++ l) := by
  unfold lastN
  rw [List.drop_append_eq_append_drop, List.drop_append_eq_append_drop,
    List.drop_drop]
  congr 1
  · congr 1
    simp only [List.length_append, List.length_drop]
    omega
  · congr 1
    simp only [List.length_append, List.length_drop]
    omega

/-- The bounded push never grows the deque past its capacity. -/
theorem length_pushCap (cap : Nat) (acc : List Nat) (x : Nat)
    (h : acc.length ≤ cap) : (pushCap cap acc x).length ≤ cap := by
  unfold pushCap
  by_cases hlen : cap < (acc ++ [x]).length
  · simp only [hlen, if_true, List.length_drop]
    omega
  · simp only [hlen, if_false]
    simp only [List.length_append, List.length_singleton] at hlen ⊢
    omega

/-- A bounded push followed by more data sees the same last `cap` elements as
an unbounded append would. -/
theorem lastN_pushCap_append (cap : Nat) (acc : List Nat) (x : Nat)
    (l : List Nat) (h : acc.length ≤ cap) :
    lastN cap (pushCap cap acc x ++ l) = lastN cap ((acc ++ [x]) ++ l) := by
  unfold pushCap
  simp only [List.length_append, List.length_singleton]
  by_cases hlen : cap < acc.length + 1
  · rw [if_pos hlen]
    refine lastN_drop_append cap (acc ++ [x]) l (acc.length + 1 - cap) ?_
    simp only [List.length_append, List.length_singleton]
    omega
  · rw [if_neg hlen]

/-- Pushing a whole list through the bounded deque keeps exactly its last
`cap` elements. -/
theorem foldl_pushCap_eq_lastN (cap : Nat) :
    ∀ (l acc : List Nat), acc.length ≤ cap →
      List.foldl (pushCap cap) acc l = lastN cap (acc ++ l) := by
  intro l
  induction l with
  | nil =>
    intro acc h
    simp [lastN, Nat.sub_eq_zero_of_le h]
  | cons x xs ih =>
    intro acc h
    rw [List.foldl_cons, ih (pushCap cap acc x) (length_pushCap cap acc x h),
      show acc ++ x :: xs = (acc ++ [x]) ++ xs by simp]
    exact lastN_pushCap_append cap acc x xs h

/-- While recording, processing `l` with current consecutive-silence count `k`
never reaches the silence threshold `silM` (so the loop does not emit inside
`l`): speech frames reset the count (audio_in.py line 162), silent frames
increment it (line 170). -/
def runsBelow (silM thr : Nat) : Nat → List Frame → Bool
  | _, [] => true
  | k, f :: rest =>
    if classify thr f then runsBelow silM thr 0 rest
    else decide (k + 1 < silM) && runsBelow silM thr (k + 1) rest

/-- The consecutive-silence count after processing `l` while recording,
starting from count `k`. -/
def silAfter (thr : Nat) : Nat → List Frame → Nat
  | k, [] => k
  | k, f :: rest =>
    if classify thr f then silAfter thr 0 rest else silAfter thr (k + 1) rest

/-- Pre-roll phase: while no frame classifies as speech and the maximum wait
has not elapsed, the loop only pushes blocks through the bounded pre-roll
deque and advances time. -/
theorem captureRun_preroll (maxMs silM preCap thr : Nat) :
    ∀ (pre suf : List Frame) (s : RecState),
      s.recordingStarted = false →
      (∀ f ∈ pre, classify thr f = false) →
      30 * (s.framesRead + pre.length) ≤ maxMs →
      captureRun maxMs silM preCap thr s (pre ++ suf) =
        captureRun maxMs silM preCap thr
          { s with
            preBuffer := List.foldl (pushCap preCap) s.preBuffer (pre.map Frame.data),
            framesRead := s.framesRead + pre.length } suf := by
  intro pre
  induction pre with
  | nil =>
    intro suf s _ _ _
    simp
  | cons f pre ih =>
    intro suf s hs hall htime
    have hf : classify thr f = false := hall f (by simp)
    have hpre : ∀ g ∈ pre, classify thr g = false := by
      intro g hg; exact hall g (by simp [hg])
    have htm : ¬30 * s.framesRead > maxMs := by
      simp only [List.length_cons] at htime; omega
    have hstep : captureRun maxMs silM preCap thr s ((f :: pre) ++ suf) =
        captureRun maxMs silM preCap thr
          { s with preBuffer := pushCap preCap s.preBuffer f.data,
                   framesRead := s.framesRead + 1 } (pre ++ suf) := by
      simp [captureRun, timeoutDue, hs, htm, hf]
    rw [hstep, ih suf
      { s with preBuffer := pushCap preCap s.preBuffer f.data,
               framesRead := s.framesRead + 1 }
      (by simp [hs]) hpre
      (by simp only [List.length_cons] at htime; simp; omega)]
    simp only [List.map_cons, List.foldl_cons, List.length_cons]
    have harith : s.framesRead + 1 + pre.length = s.framesRead + (pre.length + 1) := by
      omega
    rw [harith]

/-- In-recording phase: while the consecutive-silence count stays below the
threshold, every frame (speech or silence) is appended to the utterance
buffer and the loop keeps going. -/
theorem captureRun_recording_append (maxMs silM preCap thr : Nat) :
    ∀ (mid suf : List Frame) (s : RecState),
      s.recordingStarted = true →
      runsBelow silM thr s.silentFrames mid = true →
      captureRun maxMs silM preCap thr s (mid ++ suf) =
        captureRun maxMs silM preCap thr
          { s with chunks := s.chunks ++ mid.map Frame.data,
                   silentFrames := silAfter thr s.silentFrames mid,
                   framesRead := s.framesRead + mid.length } suf := by
  intro mid
  induction mid with
  | nil =>
    intro suf s _ _
    simp [silAfter]
  | cons f mid ih =>
    intro suf s hs hrb
    by_cases hc : classify thr f
    · have hrb2 : runsBelow silM thr 0 mid = true := by
        simpa [runsBelow, hc] using hrb
      have hstep : captureRun maxMs silM preCap thr s ((f :: mid) ++ suf) =
          captureRun maxMs silM preCap thr
            { s with chunks := s.chunks ++ [f.data], silentFrames := 0,
                     framesRead := s.framesRead + 1 } (mid ++ suf) := by
        simp [captureRun, timeoutDue, hs, hc]
      rw [hstep, ih _ _ (by simp [hs]) (by simpa using hrb2)]
      simp only [List.map_cons, List.length_cons, silAfter, hc, if_true]
      have harith : s.framesRead + 1 + mid.length = s.framesRead + (mid.length + 1) := by
        omega
      rw [harith, show s.chunks ++ [f.data] ++ mid.map Frame.data =
        s.chunks ++ f.data :: mid.map Frame.data by simp]
    · have hparts := hrb
      simp [runsBelow, hc] at hparts
      have hlt : s.silentFrames + 1 < silM := hparts.1
      have hrb2 : runsBelow silM thr (s.silentFrames + 1) mid = true := hparts.2
      have hnoemit : ¬silM ≤ s.silentFrames + 1 := by omega
      have hstep : captureRun maxMs silM preCap thr s ((f :: mid) ++ suf) =
          captureRun maxMs silM preCap thr
            { s with chunks := s.chunks ++ [f.data],
                     silentFrames := s.silentFrames + 1,
                     framesRead := s.framesRead + 1 } (mid ++ suf) := by
        simp [captureRun, timeoutDue, hs, hc, hnoemit]
      rw [hstep, ih _ _ (by simp [hs]) (by simpa using hrb2)]
      simp only [List.map_cons, List.length_cons, silAfter, hc, if_false]
      have harith : s.framesRead + 1 + mid.length = s.framesRead + (mid.length + 1) := by
        omega
      rw [harith, show s.chunks ++ [f.data] ++ mid.map Frame.data =
        s.chunks ++ f.data :: mid.map Frame.data by simp]
      simp

/-- End-of-utterance emission: from a recording state, a run of silent frames
that brings the consecutive-silence count exactly to the threshold makes the
loop append every one of them and return the utterance at the last one
(audio_in.py lines 169-173), regardless of any frames that might follow. -/
theorem captureRun_silence_emit (maxMs silM preCap thr : Nat) :
    ∀ (tl suf : List Frame) (s : RecState),
      s.recordingStarted = true →
      (∀ f ∈ tl, classify thr f = false) →
      s.silentFrames + tl.length = silM →
      tl ≠ [] →
      captureRun maxMs silM preCap thr s (tl ++ suf) =
        some (RecEvent.utterance (s.chunks ++ tl.map Frame.data)) := by
  intro tl
  induction tl with
  | nil =>
    intro suf s _ _ _ hne
    exact absurd rfl hne
  | cons f t ih =>
    intro suf s hs hall hcount _
    have hf : classify thr f = false := hall f (by simp)
    rcases List.eq_nil_or_concat t with ht | _
    · subst ht
      have hsil : silM ≤ s.silentFrames + 1 := by
        simp only [List.length_cons, List.length_nil] at hcount; omega
      simp [captureRun, timeoutDue, hs, hf, hsil]
    · have hne : t ≠ [] := by
        rename_i hcat
        obtain ⟨l, a, rfl⟩ := hcat
        simp
      have hlt : ¬silM ≤ s.silentFrames + 1 := by
        simp only [List.length_cons] at hcount
        have : 1 ≤ t.length := List.length_pos.mpr hne
        omega
      have ht : ∀ g ∈ t, classify thr g = false := by
        intro g hg; exact hall g (by simp [hg])
      have hstep : captureRun maxMs silM preCap thr s ((f :: t) ++ suf) =
          captureRun maxMs silM preCap thr
            { s with chunks := s.chunks ++ [f.data],
                     silentFrames := s.silentFrames + 1,
                     framesRead := s.framesRead + 1 } (t ++ suf) := by
        simp [captureRun, timeoutDue, hs, hf, hlt]
      rw [hstep, ih _ _ (by simp [hs]) ht
        (by simp only [List.length_cons] at hcount; simp; omega) hne]
      simp

/-- C3: for every frame sequence in which recording starts — all frames
before some frame `f0` classify as non-speech and arrive within the maximum
wait, `f0` classifies as speech — and in which the consecutive-silence count
first reaches the threshold exactly at the end of a final all-silent run
`tl` of length M, the emitted Utterance is exactly the pre-roll contribution
(the last `preCap` pre-start blocks, hence at most the pre-roll capacity)
followed by every frame, speech and silence alike, from `f0` through the Mth
consecutive silence frame inclusive; whatever frames follow are not
consumed. -/
theorem c3_utterance_exact (maxMs silM preCap thr : Nat)
    (pre mid tl rest : List Frame) (f0 : Frame)
    (hpre : ∀ f ∈ pre, classify thr f = false)
    (hf0 : classify thr f0 = true)
    (htime : 30 * pre.length ≤ maxMs)
    (hmid : runsBelow silM thr 0 mid = true)
    (hexact : silAfter thr 0 mid = 0)
    (htail : ∀ f ∈ tl, classify thr f = false)
    (htlen : tl.length = silM)
    (hM : 1 ≤ silM) :
    captureStream maxMs silM preCap thr (pre ++ f0 :: (mid ++ (tl ++ rest))) =
      some (RecEvent.utterance
        (lastN preCap (pre.map Frame.data) ++
          (f0 :: (mid ++ tl)).map Frame.data)) := by
  have htne : tl ≠ [] := by
    intro h
    rw [h] at htlen
    simp at htlen
    omega
  unfold captureStream
  rw [captureRun_preroll maxMs silM preCap thr pre _ initRecState rfl hpre
    (by simpa [initRecState] using htime)]
  have hbuf : List.foldl (pushCap preCap) [] (pre.map Frame.data) =
      lastN preCap (pre.map Frame.data) := by
    simpa using foldl_pushCap_eq_lastN preCap (pre.map Frame.data) [] (by simp)
  have htime2 : ¬maxMs < 30 * pre.length := by omega
  have hstep : captureRun maxMs silM preCap thr
      { initRecState with
        preBuffer := List.foldl (pushCap preCap) initRecState.preBuffer (pre.map Frame.data),
        framesRead := initRecState.framesRead + pre.length }
      (f0 :: (mid ++ (tl ++ rest))) =
      captureRun maxMs silM preCap thr
        { preBuffer := [], recordingStarted := true,
          chunks := lastN preCap (pre.map Frame.data) ++ [f0.data],
          silentFrames := 0,
          framesRead := pre.length + 1 }
        (mid ++ (tl ++ rest)) := by
    simp [captureRun, timeoutDue, hf0, initRecState, hbuf, htime2]
  rw [hstep, captureRun_recording_append maxMs silM preCap thr mid _ _ rfl
    (by simpa using hmid)]
  rw [captureRun_silence_emit maxMs silM preCap thr tl rest _ rfl htail
    (by simpa [hexact] using htlen) htne]
  simp [hexact, List.append_assoc]

/-- Concrete pre-start silence for the C3 witness (three blocks, capacity 2:
only blocks 2 and 3 survive in the pre-roll). -/
def c3Pre : List Frame :=
  [{ data := 1, rms := 0, vad := false },
   { data := 2, rms := 0, vad := false },
   { data := 3, rms := 0, vad := false }]

/-- Concrete start-of-speech frame for the C3 witness. -/
def c3F0 : Frame := { data := 4, rms := 5, vad := true }

/-- Concrete in-recording frames for the C3 witness: one silent block followed
by one speech block (the count never reaches the threshold of 2 and ends at
0). -/
def c3Mid : List Frame :=
  [{ data := 5, rms := 0, vad := false },
   { data := 6, rms := 9, vad := true }]

/-- Concrete terminating silent run for the C3 witness (length = threshold). -/
def c3Tail : List Frame :=
  [{ data := 7, rms := 0, vad := false },
   { data := 8, rms := 0, vad := false }]

/-- Concrete unread trailing frames for the C3 witness. -/
def c3Rest : List Frame := [{ data := 9, rms := 9, vad := true }]

/-- Witness for C3 at a concrete input: pre-roll keeps the last 2 of 3
pre-start blocks, and the utterance is exactly blocks 2-8. -/
theorem c3_utterance_exact_witness :
    runsBelow 2 1 0 c3Mid = true ∧
    captureStream 9000 2 2 1 (c3Pre ++ c3F0 :: (c3Mid ++ (c3Tail ++ c3Rest))) =
      some (RecEvent.utterance
        (lastN 2 (c3Pre.map Frame.data) ++
          (c3F0 :: (c3Mid ++ c3Tail)).map Frame.data)) :=
  ⟨by decide,
   c3_utterance_exact 9000 2 2 1 c3Pre c3Mid c3Tail c3Rest c3F0
     (by decide) (by decide) (by decide) (by decide) (by decide) (by decide)
     (by decide) (by decide)⟩

/-! ## Speech output: `speak.py`

Module-level state of speak.py: `_engine` (the optional pyttsx3 engine,
line 51; modelled as `Option Bool`, the flag saying whether it is currently
voicing something), `_process` (the optional `say`/`espeak` subprocess,
line 52; `Option Bool`, the flag standing for `poll() is None`, i.e. still
running), plus the set of background TTS threads that `speak_async` has
spawned via `threading.Thread(...).start()` and that have not yet finished —
tracked as a list of task ids, with `nextId` the next fresh id.  The lock
taken by the Python code serialises these operations; the model applies them
atomically. -/

/-- The module-level mutable state of speak.py together with the live TTS
worker threads. -/
structure SpeakSys where
  active : List Nat
  nextId : Nat
  engine : Option Bool
  procRunning : Option Bool
deriving DecidableEq, Repr

/-- Fresh module state: no threads, `_engine = None`, `_process = None`. -/
def initSpeakSys : SpeakSys :=
  { active := [], nextId := 0, engine := none, procRunning := none }

/-- `stop_speaking` (speak.py, lines 82-100): stop the pyttsx3 engine if one
exists (wrapped in try/except, so no exception propagates), terminate the
external `say`/`espeak` process if it is still running, and set `_process`
to `None`.  It does not touch the spawned worker threads (`active`): nothing
in it joins or signals them. -/
def stopSpeaking (s : SpeakSys) : SpeakSys :=
  { s with engine := s.engine.map (fun _ => false), procRunning := none }

/-- Which TTS backends are available, mirroring the dispatch conditions of
`speak_async` (speak.py, lines 306-341): an ElevenLabs API key in the
environment, an importable ElevenLabs SDK, a configured OpenAI voice name,
and a working pyttsx3 install. -/
structure TTSConfig where
  elevenKey : Bool
  elevenSdk : Bool
  openaiVoice : Bool
  pyttsx3Ok : Bool
deriving DecidableEq, Repr

/-- Start one background TTS worker (`threading.Thread(target=...).start()`,
speak.py lines 123-125, 326-328 and 339-341): a fresh task id joins the live
set and is returned to the caller. -/
def spawnTask (s : SpeakSys) : SpeakSys × Option Nat :=
  ({ s with active := s.active ++ [s.nextId], nextId := s.nextId + 1 },
   some s.nextId)

/-- `speak_async` (speak.py, lines 306-341): pick a backend in priority order
(ElevenLabs if a key is set — returning None without spawning when the SDK is
missing, lines 277-299 — then OpenAI, then pyttsx3, then the system-command
fallback) and start one background thread for it.  No branch cancels, joins
or even inspects a previously started task. -/
def speakAsync (cfg : TTSConfig) (s : SpeakSys) : SpeakSys × Option Nat :=
  if cfg.elevenKey then
    if cfg.elevenSdk then spawnTask s else (s, none)
  else if cfg.openaiVoice then spawnTask s
  else if cfg.pyttsx3Ok then spawnTask s
  else spawnTask s

/-- A worker thread finishing on its own: its id leaves the live set. -/
def finishTask (s : SpeakSys) (id : Nat) : SpeakSys :=
  { s with active := s.active.filter (fun t => t != id) }

/-! ### C1: the at-most-one-SpeakTask invariant -/

/-- A backend configuration with only the system-command fallback available. -/
def sysOnlyCfg : TTSConfig :=
  { elevenKey := false, elevenSdk := false, openaiVoice := false, pyttsx3Ok := true }

/-- Counterexample to C1 as stated: two consecutive `speak_async` calls with
no completion in between leave TWO speaking tasks active simultaneously — the
first call's task is neither canceled nor awaited by the second call, so
`speak` does not enforce the at-most-one-active-SpeakTask invariant. -/
theorem c1_counterexample :
    ((speakAsync sysOnlyCfg (speakAsync sysOnlyCfg initSpeakSys).1).1).active = [0, 1] ∧
    2 ≤ ((speakAsync sysOnlyCfg (speakAsync sysOnlyCfg initSpeakSys).1).1).active.length := by
  decide

/-- C1 (amended): `speak_async` performs no cancellation at all — it leaves
every previously active speaking task running untouched and either starts
exactly one new background task (appended to the live set) or starts nothing
(ElevenLabs key set but SDK missing); tasks are never queued, and the
at-most-one-SpeakTask invariant is left to the callers (who must call
`stop_speaking` or join the returned thread themselves). -/
theorem c1_speak_async_no_cancel (cfg : TTSConfig) (s : SpeakSys) :
    ((speakAsync cfg s).1).active = s.active ++ [s.nextId] ∨
      ((speakAsync cfg s).1).active = s.active := by
  unfold speakAsync spawnTask
  by_cases h1 : cfg.elevenKey <;> by_cases h2 : cfg.elevenSdk <;>
    by_cases h3 : cfg.openaiVoice <;> by_cases h4 : cfg.pyttsx3Ok <;>
    simp [h1, h2, h3, h4]

/-! ### C8: `stop_speaking` is a no-op when idle and idempotent -/

/-- C8: calling `stop_speaking` when no speaking task is active (`_engine` and
`_process` both `None`) changes nothing — and it cannot raise, since both the
engine stop and the process termination are wrapped in try/except — and
calling it twice, from any state, has exactly the effect of calling it
once. -/
theorem c8_stop_speaking_idempotent (s : SpeakSys) :
    (s.engine = none → s.procRunning = none → stopSpeaking s = s) ∧
    stopSpeaking (stopSpeaking s) = stopSpeaking s := by
  obtain ⟨ac, ni, en, pr⟩ := s
  constructor
  · intro h1 h2
    simp only at h1 h2
    subst h1; subst h2
    simp [stopSpeaking]
  · cases en <;> simp [stopSpeaking]

/-- Witness for C8: the fresh module state is untouched by `stop_speaking`,
and on a state with a live engine and process a second call changes nothing
more. -/
theorem c8_stop_speaking_idempotent_witness :
    stopSpeaking initSpeakSys = initSpeakSys ∧
    stopSpeaking (stopSpeaking
        { active := [3], nextId := 4, engine := some true, procRunning := some true }) =
      stopSpeaking
        { active := [3], nextId := 4, engine := some true, procRunning := some true } :=
  ⟨(c8_stop_speaking_idempotent initSpeakSys).1 rfl rfl,
   (c8_stop_speaking_idempotent
     { active := [3], nextId := 4, engine := some true, procRunning := some true }).2⟩

/-! ## Transcription: `Transcriber.transcribe_audio` (audio_in.py, lines 215-252)

The Whisper network call is an oracle `api : List Nat → Except String String`
(audio bytes in, either a transcript or a raised exception).  The Python
method returns `""` for empty or sub-1000-byte input before ever calling the
API, and wraps the WAV construction and the API call in a try/except that
turns any exception into `""` — so the method is total: it never lets an
exception propagate. -/

/-- `Transcriber.transcribe_audio`: the guard
`if not audio_bytes or len(audio_bytes) < 1000` (line 223; `not audio_bytes`
is emptiness, i.e. length 0) and the catch-all `except Exception: return ""`
(lines 249-252). -/
def transcribeAudio (api : List Nat → Except String String)
    (audioBytes : List Nat) : String :=
  if audioBytes.length = 0 ∨ audioBytes.length < 1000 then ""
  else
    match api audioBytes with
    | Except.ok t => t
    | Except.error _ => ""

/-- An API oracle that always succeeds with a fixed transcript. -/
def apiHi : List Nat → Except String String := fun _ => Except.ok "hi"

/-- An API oracle that always raises. -/
def apiBoom : List Nat → Except String String := fun _ => Except.error "boom"

/-- 1600 bytes of raw PCM: at 16 kHz, 16-bit mono that is 0.05 s of audio,
shorter than the claimed ~0.1-0.2 s minimum (its duration in seconds is
`length / 32000`, so `10 * length < 32000` says it is shorter than 0.1 s). -/
def pcm1600 : List Nat := List.replicate 1600 0

/-- Counterexample to C9 as stated: the Transcriber's actual cutoff is 1000
bytes (~0.031 s), not ~0.1-0.2 s — 0.05 s of audio (1600 bytes, shorter than
0.1 s) is not rejected but transcribed. -/
theorem c9_counterexample :
    10 * pcm1600.length < 32000 ∧ transcribeAudio apiHi pcm1600 = "hi" := by
  have hlen : pcm1600.length = 1600 := by
    unfold pcm1600
    exact List.length_replicate 1600 0
  constructor
  · rw [hlen]
    norm_num
  · simp [transcribeAudio, hlen, apiHi]

/-- C9 (amended): for every input, `Transcriber.transcribe_audio` returns a
string rather than raising: it returns "" for audio shorter than 1000 bytes
(~0.03 s at 16 kHz 16-bit mono — the exact 0.2 s minimum-duration check lives
in `capture_and_transcribe`, not here), and it catches any exception raised
during transcription and returns "" instead of propagating it. -/
theorem c9_transcriber_total (api : List Nat → Except String String)
    (audioBytes : List Nat) :
    (audioBytes.length < 1000 → transcribeAudio api audioBytes = "") ∧
    (∀ msg, api audioBytes = Except.error msg →
      transcribeAudio api audioBytes = "") := by
  constructor
  · intro h
    simp [transcribeAudio, h]
  · intro msg h
    unfold transcribeAudio
    by_cases hshort : audioBytes.length = 0 ∨ audioBytes.length < 1000
    · rw [if_pos hshort]
    · rw [if_neg hshort]
      simp [h]

/-- Witness for the amended C9: a 3-byte input is rejected as too short, and
a failing API call on a long input degrades to "". -/
theorem c9_transcriber_total_witness :
    transcribeAudio apiHi [1, 2, 3] = "" ∧ transcribeAudio apiBoom pcm1600 = "" :=
  ⟨(c9_transcriber_total apiHi [1, 2, 3]).1 (by decide),
   (c9_transcriber_total apiBoom pcm1600).2 "boom" rfl⟩

/-! ## The conversation state machine: `assistant.py`

The `Assistant` class.  Time is in integer milliseconds and is supplied with
each external event (the Python code reads `time.time()`).  Audio chunks are
abstract block ids (`Nat`); the VAD verdict for a chunk, the transcription of
the buffered audio, and the outcome of `handle_command` arrive as event data,
since they are external collaborators (the `VAD` class itself is not among
the sources; only its boolean `is_speech` answer and its
`silence_threshold_sec` knob — the model's `sil` parameter, in ms — are
referenced by assistant.py).  The observer callback `on_state_change` is
recorded in a notification log `notif`; the in-flight `speak_async` thread is
tracked by the flag `speakActive` (set when `_speak_response` starts the
thread, cleared by `stop_speaking` on barge-in or when the thread finishes).
Database logging (`log_message`, `create_chat_session`) is an external
collaborator with no bearing on machine state and is not modelled. -/

/-- The `AssistantState` enum (assistant.py, lines 14-20). -/
inductive AState where
  | idle
  | listeningForWakeWord
  | listeningForCommand
  | processingCommand
  | speaking
deriving DecidableEq, Repr

/-- One conversation-history entry (a Python dict with role and content). -/
structure Turn where
  role : String
  content : String
deriving DecidableEq, Repr

/-- Stands for `SYSTEM_PROMPT` (command_handler.py line 94): its content is a
long instruction string assembled from settings at import time and is never
inspected by the state machine, so it is abstracted to a fixed system turn. -/
def systemPrompt : Turn := { role := "system", content := "system prompt" }

/-- The mutable fields of `Assistant` (assistant.py, lines 29-45), plus the
notification log (the sequence of values passed to `on_state_change`) and the
in-flight-TTS flag.  `lastSpeechTime` is `None` in Python until the machine
first enters LISTENING_FOR_COMMAND, and is only ever read in that state after
having been set; the model initialises it to 0. -/
structure Assistant where
  state : AState
  sessionId : Option Nat
  history : List Turn
  cmdBuf : List Nat
  speechStarted : Bool
  lastSpeechTime : Nat
  notif : List AState
  speakActive : Bool
deriving DecidableEq, Repr

/-- `Assistant.__init__` (assistant.py, lines 29-45). -/
def initAssistant : Assistant :=
  { state := AState.idle, sessionId := none, history := [], cmdBuf := [],
    speechStarted := false, lastSpeechTime := 0, notif := [], speakActive := false }

/-- `Assistant._set_state` (assistant.py, lines 47-60): return unchanged if
the state is already `ns`; otherwise assign the new state, fire the observer
callback (record `ns` in the log), and — only on entry to
LISTENING_FOR_COMMAND — reset the command audio buffer, the speech-started
flag and the last-speech timestamp (to the current time). -/
def setState (now : Nat) (a : Assistant) (ns : AState) : Assistant :=
  if a.state = ns then a
  else if ns = AState.listeningForCommand then
    { a with state := ns, notif := a.notif ++ [ns],
             cmdBuf := [], speechStarted := false, lastSpeechTime := now }
  else { a with state := ns, notif := a.notif ++ [ns] }

/-- Outcome of `handle_command` as seen by `Assistant._process_command`
(assistant.py, lines 145-153): it raised `RestartRequest`, raised some other
exception, or returned (`None` or a string). -/
inductive HandlerResult where
  | restartReq
  | exn
  | ok (response : Option String)
deriving DecidableEq, Repr

/-- The apology spoken when `handle_command` raises an unexpected exception
(assistant.py line 153; wording abbreviated, only its non-emptiness
matters). -/
def apologyText : String := "I am sorry, I encountered an error. Please try again."

/-- Python's `str.strip()` (used at assistant.py line 137 as
`user_input.strip()`): remove leading and trailing whitespace.  Implemented
over the character list so it is executable by the kernel. -/
def pyStrip (s : String) : String :=
  String.mk (((s.data.dropWhile Char.isWhitespace).reverse.dropWhile
    Char.isWhitespace).reverse)

/-- `Assistant._speak_response` (assistant.py, lines 165-180): enter SPEAKING
and start the background speak-and-return thread (the thread's completion is
the separate `speakFinished` event). -/
def speakResponse (now : Nat) (a : Assistant) : Assistant :=
  let a1 := setState now a AState.speaking
  { a1 with speakActive := true }

/-- `Assistant._process_command` (assistant.py, lines 123-163): bail out to
wake-word listening when the buffer is empty; otherwise enter
PROCESSING_COMMAND, join and clear the buffer, transcribe it (`tr` is the
transcriber oracle's answer for the joined audio); empty/blank transcription
goes back to wake-word listening; otherwise the user turn is appended and
`handle_command` runs: `RestartRequest` invokes `stop()`, any other exception
is replaced by the apology response; a falsy response goes back to wake-word
listening, and a real response is appended as the assistant turn and
spoken. -/
def processCommand (now : Nat) (tr : String) (hr : HandlerResult)
    (a : Assistant) : Assistant :=
  if a.cmdBuf = [] then setState now a AState.listeningForWakeWord
  else
    let a1 := setState now a AState.processingCommand
    let a2 := { a1 with cmdBuf := [] }
    if pyStrip tr = "" then setState now a2 AState.listeningForWakeWord
    else
      let a3 := { a2 with history := a2.history ++ [{ role := "user", content := tr }] }
      match hr with
      | HandlerResult.restartReq => setState now a3 AState.idle
      | HandlerResult.exn =>
          speakResponse now
            { a3 with history := a3.history ++
                [{ role := "assistant", content := apologyText }] }
      | HandlerResult.ok none => setState now a3 AState.listeningForWakeWord
      | HandlerResult.ok (some r) =>
          if r = "" then setState now a3 AState.listeningForWakeWord
          else
            speakResponse now
              { a3 with history := a3.history ++ [{ role := "assistant", content := r }] }

/-- `Assistant._handle_command_audio` (assistant.py, lines 100-121): a speech
chunk sets the speech-started flag, refreshes the last-speech time and is
appended to the buffer; a silent chunk after speech started triggers
`_process_command` once the silence gap exceeds the VAD silence threshold; a
silent chunk before speech started falls back to wake-word listening after a
10-second timeout. -/
def handleCommandAudio (sil now chunk : Nat) (isSpeech : Bool)
    (tr : String) (hr : HandlerResult) (a : Assistant) : Assistant :=
  if isSpeech then
    { a with speechStarted := true, lastSpeechTime := now,
             cmdBuf := a.cmdBuf ++ [chunk] }
  else if a.speechStarted then
    if sil < now - a.lastSpeechTime then processCommand now tr hr a else a
  else
    if 10000 < now - a.lastSpeechTime then
      setState now a AState.listeningForWakeWord
    else a

/-- `Assistant._handle_barge_in` (assistant.py, lines 182-188): a speech
chunk while the assistant is talking stops the TTS (`stop_speaking`, modelled
as clearing the in-flight flag) and immediately transitions to
LISTENING_FOR_COMMAND; a silent chunk does nothing. -/
def handleBargeIn (now : Nat) (isSpeech : Bool) (a : Assistant) : Assistant :=
  if isSpeech then
    setState now { a with speakActive := false } AState.listeningForCommand
  else a

/-- `Assistant.process_audio_chunk` (assistant.py, lines 82-98): dispatch on
the current state; IDLE ignores audio, LISTENING_FOR_WAKE_WORD feeds the
wake-word detector (whose detection callback is the separate `wakeDetected`
event), PROCESSING_COMMAND has no branch and ignores audio. -/
def processAudioChunk (sil now chunk : Nat) (isSpeech : Bool)
    (tr : String) (hr : HandlerResult) (a : Assistant) : Assistant :=
  match a.state with
  | AState.idle => a
  | AState.listeningForWakeWord => a
  | AState.listeningForCommand => handleCommandAudio sil now chunk isSpeech tr hr a
  | AState.processingCommand => a
  | AState.speaking => handleBargeIn now isSpeech a

/-- `Assistant._on_wake_word_detected` (assistant.py, lines 72-80): ignored
unless listening for the wake word; otherwise a fresh session id is taken
from the clock, the history is reset to the system prompt, and the machine
enters LISTENING_FOR_COMMAND. -/
def onWakeWordDetected (now : Nat) (a : Assistant) : Assistant :=
  if a.state = AState.listeningForWakeWord then
    setState now { a with sessionId := some now, history := [systemPrompt] }
      AState.listeningForCommand
  else a

/-- `Assistant.start` (assistant.py, lines 62-66). -/
def startAssistant (now : Nat) (a : Assistant) : Assistant :=
  if a.state = AState.idle then setState now a AState.listeningForWakeWord else a

/-- `Assistant.stop` (assistant.py, lines 68-70). -/
def stopAssistant (now : Nat) (a : Assistant) : Assistant :=
  setState now a AState.idle

/-- Completion of the `speak_and_return_to_listen` thread (assistant.py,
lines 171-178): the TTS thread has been joined (so no speak task is in
flight any more), and if the state is still SPEAKING — i.e. no barge-in
intervened — the machine returns to wake-word listening. -/
def onSpeakFinished (now : Nat) (a : Assistant) : Assistant :=
  let a1 := { a with speakActive := false }
  if a1.state = AState.speaking then
    setState now a1 AState.listeningForWakeWord
  else a1

/-- The external events that drive the assistant: an audio chunk (with the
VAD verdict and, for the case where it completes a command, the transcription
and handler oracles' answers), a wake-word detection callback, the public
start/stop calls, and the completion of the speaking thread. -/
inductive Ev where
  | chunkEv (chunk : Nat) (isSpeech : Bool) (now : Nat) (tr : String) (hr : HandlerResult)
  | wakeDetected (now : Nat)
  | startCall (now : Nat)
  | stopCall (now : Nat)
  | speakFinished (now : Nat)
deriving DecidableEq, Repr

/-- One event step of the assistant. -/
def stepAssistant (sil : Nat) (a : Assistant) : Ev → Assistant
  | Ev.chunkEv chunk isSpeech now tr hr => processAudioChunk sil now chunk isSpeech tr hr a
  | Ev.wakeDetected now => onWakeWordDetected now a
  | Ev.startCall now => startAssistant now a
  | Ev.stopCall now => stopAssistant now a
  | Ev.speakFinished now => onSpeakFinished now a

/-- A run of the assistant from construction through a list of events. -/
def runAssistant (sil : Nat) (evs : List Ev) : Assistant :=
  evs.foldl (stepAssistant sil) initAssistant

/-- Appending one event to a run is one step on the run so far. -/
theorem runAssistant_append (sil : Nat) (evs : List Ev) (e : Ev) :
    runAssistant sil (evs ++ [e]) = stepAssistant sil (runAssistant sil evs) e := by
  simp [runAssistant, List.foldl_append]

/-! ### C4: barge-in during Speaking -/

/-- C4: in the Speaking state, a single speech-classified chunk cancels the
in-flight speech-output task and transitions to ListeningForCommand, with the
command audio buffer, speech-started flag and last-speech timestamp reset on
entry (no carry-over from the canceled speech), and the observers notified of
exactly this change. -/
theorem c4_barge_in (sil now chunk : Nat) (tr : String) (hr : HandlerResult)
    (a : Assistant) (h : a.state = AState.speaking) :
    (stepAssistant sil a (Ev.chunkEv chunk true now tr hr)).state =
        AState.listeningForCommand ∧
    (stepAssistant sil a (Ev.chunkEv chunk true now tr hr)).speakActive = false ∧
    (stepAssistant sil a (Ev.chunkEv chunk true now tr hr)).cmdBuf = [] ∧
    (stepAssistant sil a (Ev.chunkEv chunk true now tr hr)).speechStarted = false ∧
    (stepAssistant sil a (Ev.chunkEv chunk true now tr hr)).lastSpeechTime = now ∧
    (stepAssistant sil a (Ev.chunkEv chunk true now tr hr)).notif =
      a.notif ++ [AState.listeningForCommand] := by
  simp [stepAssistant, processAudioChunk, h, handleBargeIn, setState]

/-- A concrete mid-speech assistant for the C4 witness. -/
def c4Assistant : Assistant :=
  { state := AState.speaking, sessionId := some 1, history := [systemPrompt],
    cmdBuf := [], speechStarted := false, lastSpeechTime := 0,
    notif := [AState.speaking], speakActive := true }

/-- Witness for C4 at a concrete mid-speech assistant and speech chunk. -/
theorem c4_barge_in_witness :
    (stepAssistant 3000 c4Assistant (Ev.chunkEv 7 true 500 "" HandlerResult.exn)).state =
        AState.listeningForCommand ∧
    (stepAssistant 3000 c4Assistant (Ev.chunkEv 7 true 500 "" HandlerResult.exn)).speakActive = false ∧
    (stepAssistant 3000 c4Assistant (Ev.chunkEv 7 true 500 "" HandlerResult.exn)).cmdBuf = [] ∧
    (stepAssistant 3000 c4Assistant (Ev.chunkEv 7 true 500 "" HandlerResult.exn)).speechStarted = false ∧
    (stepAssistant 3000 c4Assistant (Ev.chunkEv 7 true 500 "" HandlerResult.exn)).lastSpeechTime = 500 ∧
    (stepAssistant 3000 c4Assistant (Ev.chunkEv 7 true 500 "" HandlerResult.exn)).notif =
      c4Assistant.notif ++ [AState.listeningForCommand] :=
  c4_barge_in 3000 500 7 "" HandlerResult.exn c4Assistant rfl

/-! ### C6: RestartRequest during ProcessingCommand -/

/-- C6: when `handle_command` raises the restart signal while the machine is
processing a command, the machine transitions to Idle (via `stop()`), and the
only history entry appended by the whole step is the user turn — no assistant
turn is appended. -/
theorem c6_restart_to_idle (sil now chunk : Nat) (tr : String) (a : Assistant)
    (hst : a.state = AState.listeningForCommand)
    (hsp : a.speechStarted = true)
    (hbuf : a.cmdBuf ≠ [])
    (hsil : sil < now - a.lastSpeechTime)
    (htr : pyStrip tr ≠ "") :
    (stepAssistant sil a (Ev.chunkEv chunk false now tr HandlerResult.restartReq)).state =
        AState.idle ∧
    (stepAssistant sil a (Ev.chunkEv chunk false now tr HandlerResult.restartReq)).history =
      a.history ++ [{ role := "user", content := tr }] := by
  simp [stepAssistant, processAudioChunk, hst, handleCommandAudio, hsp, hsil,
    processCommand, hbuf, htr, setState]

/-- A concrete assistant with a buffered command for the C6 witness. -/
def c6Assistant : Assistant :=
  { state := AState.listeningForCommand, sessionId := some 1,
    history := [systemPrompt], cmdBuf := [7], speechStarted := true,
    lastSpeechTime := 1000,
    notif := [AState.listeningForWakeWord, AState.listeningForCommand],
    speakActive := false }

/-- Witness for C6: a silent chunk after a long-enough gap with transcript
"restart" and the restart signal sends the machine to Idle, appending only
the user turn. -/
theorem c6_restart_to_idle_witness :
    (stepAssistant 3000 c6Assistant
        (Ev.chunkEv 8 false 9000 "restart" HandlerResult.restartReq)).state =
      AState.idle ∧
    (stepAssistant 3000 c6Assistant
        (Ev.chunkEv 8 false 9000 "restart" HandlerResult.restartReq)).history =
      c6Assistant.history ++ [{ role := "user", content := "restart" }] :=
  c6_restart_to_idle 3000 9000 8 "restart" c6Assistant rfl rfl
    (by decide) (by decide) (by decide)

/-! ### C10: frame effect of `_set_state` and non-repeating notifications -/

/-- Log sanity invariant: the state-change notifications never repeat a state
twice in a row, and the last notified state (if any) is the current state —
which holds because `_set_state` is the only place the state is assigned and
it notifies exactly when the state changes. -/
def NotifInv (a : Assistant) : Prop :=
  List.Chain' (fun x y => x ≠ y) a.notif ∧
    ∀ x, a.notif.getLast? = some x → x = a.state

/-- `_set_state` preserves the notification-log invariant. -/
theorem notifInv_setState (now : Nat) (a : Assistant) (ns : AState)
    (h : NotifInv a) : NotifInv (setState now a ns) := by
  by_cases hs : a.state = ns
  · unfold setState
    rw [if_pos hs]
    exact h
  · have hlast : ∀ x, a.notif.getLast? = some x → x ≠ ns := by
      intro x hx he
      refine hs ?_
      rw [← h.2 x hx]
      exact he
    have hchain : List.Chain' (fun x y => x ≠ y) (a.notif ++ [ns]) := by
      rw [List.chain'_append]
      refine ⟨h.1, List.chain'_singleton ns, ?_⟩
      intro x hx y hy
      simp only [List.head?_cons, Option.mem_def, Option.some.injEq] at hy
      subst hy
      exact hlast x hx
    have hget : ∀ x, (a.notif ++ [ns]).getLast? = some x → x = ns := by
      intro x hx
      rw [List.getLast?_concat] at hx
      exact Option.some_inj.mp hx.symm
    unfold setState
    rw [if_neg hs]
    by_cases hns : ns = AState.listeningForCommand
    · rw [if_pos hns]
      exact ⟨hchain, hget⟩
    · rw [if_neg hns]
      exact ⟨hchain, hget⟩

/-- `_speak_response` preserves the notification-log invariant. -/
theorem notifInv_speakResponse (now : Nat) (a : Assistant) (h : NotifInv a) :
    NotifInv (speakResponse now a) := by
  have h1 := notifInv_setState now a AState.speaking h
  exact ⟨h1.1, h1.2⟩

/-- `_process_command` preserves the notification-log invariant. -/
theorem notifInv_processCommand (now : Nat) (tr : String) (hr : HandlerResult)
    (a : Assistant) (h : NotifInv a) : NotifInv (processCommand now tr hr a) := by
  unfold processCommand
  by_cases hbuf : a.cmdBuf = []
  · rw [if_pos hbuf]
    exact notifInv_setState now a _ h
  · rw [if_neg hbuf]
    dsimp only
    have h1 := notifInv_setState now a AState.processingCommand h
    by_cases htr : pyStrip tr = ""
    · rw [if_pos htr]
      exact notifInv_setState now _ _ ⟨h1.1, h1.2⟩
    · rw [if_neg htr]
      cases hr with
      | restartReq => exact notifInv_setState now _ _ ⟨h1.1, h1.2⟩
      | exn => exact notifInv_speakResponse now _ ⟨h1.1, h1.2⟩
      | ok response =>
        cases response with
        | none => exact notifInv_setState now _ _ ⟨h1.1, h1.2⟩
        | some r =>
          dsimp only
          by_cases hre : r = ""
          · rw [if_pos hre]
            exact notifInv_setState now _ _ ⟨h1.1, h1.2⟩
          · rw [if_neg hre]
            exact notifInv_speakResponse now _ ⟨h1.1, h1.2⟩

/-- Every event step preserves the notification-log invariant. -/
theorem notifInv_step (sil : Nat) (a : Assistant) (e : Ev) (h : NotifInv a) :
    NotifInv (stepAssistant sil a e) := by
  cases e with
  | chunkEv chunk isSpeech now tr hr =>
    show NotifInv (processAudioChunk sil now chunk isSpeech tr hr a)
    unfold processAudioChunk
    split
    · exact h
    · exact h
    · unfold handleCommandAudio
      by_cases h1 : isSpeech = true
      · rw [if_pos h1]
        exact ⟨h.1, h.2⟩
      · rw [if_neg h1]
        by_cases h2 : a.speechStarted = true
        · rw [if_pos h2]
          by_cases h3 : sil < now - a.lastSpeechTime
          · rw [if_pos h3]
            exact notifInv_processCommand now tr hr a h
          · rw [if_neg h3]
            exact h
        · rw [if_neg h2]
          by_cases h4 : 10000 < now - a.lastSpeechTime
          · rw [if_pos h4]
            exact notifInv_setState now a _ h
          · rw [if_neg h4]
            exact h
    · exact h
    · unfold handleBargeIn
      by_cases h1 : isSpeech = true
      · rw [if_pos h1]
        exact notifInv_setState now _ _ ⟨h.1, h.2⟩
      · rw [if_neg h1]
        exact h
  | wakeDetected now =>
    show NotifInv (onWakeWordDetected now a)
    unfold onWakeWordDetected
    by_cases h1 : a.state = AState.listeningForWakeWord
    · rw [if_pos h1]
      exact notifInv_setState now _ _ ⟨h.1, h.2⟩
    · rw [if_neg h1]
      exact h
  | startCall now =>
    show NotifInv (startAssistant now a)
    unfold startAssistant
    by_cases h1 : a.state = AState.idle
    · rw [if_pos h1]
      exact notifInv_setState now a _ h
    · rw [if_neg h1]
      exact h
  | stopCall now =>
    show NotifInv (stopAssistant now a)
    exact notifInv_setState now a _ h
  | speakFinished now =>
    show NotifInv (onSpeakFinished now a)
    unfold onSpeakFinished
    dsimp only
    by_cases h1 : a.state = AState.speaking
    · rw [if_pos h1]
      exact notifInv_setState now _ _ ⟨h.1, h.2⟩
    · rw [if_neg h1]
      exact ⟨h.1, h.2⟩

/-- Every run of the assistant satisfies the notification-log invariant. -/
theorem notifInv_run (sil : Nat) (evs : List Ev) : NotifInv (runAssistant sil evs) := by
  induction evs using List.reverseRecOn with
  | nil =>
    constructor
    · simp [runAssistant, initAssistant]
    · intro x hx
      simp [runAssistant, initAssistant] at hx
  | append_singleton xs e ih =>
    rw [runAssistant_append]
    exact notifInv_step sil (runAssistant sil xs) e ih

/-- C10: setting the assistant's state to the state it already holds leaves
every field unchanged and emits no state-change notification, and
consequently, over every run, the observer callback fires exactly on actual
changes — the notification log never contains the same state twice in a
row. -/
theorem c10_set_state_frame :
    (∀ (now : Nat) (a : Assistant) (s : AState), a.state = s → setState now a s = a) ∧
    (∀ (sil : Nat) (evs : List Ev),
      List.Chain' (fun x y => x ≠ y) (runAssistant sil evs).notif) :=
  ⟨fun now a s h => by unfold setState; rw [if_pos h],
   fun sil evs => (notifInv_run sil evs).1⟩

/-- Witness for C10: the idle initial assistant is untouched by a redundant
set-to-idle, and a run with a redundant second `start()` has a
repetition-free log. -/
theorem c10_set_state_frame_witness :
    setState 5 initAssistant AState.idle = initAssistant ∧
    List.Chain' (fun x y => x ≠ y)
      (runAssistant 3000 [Ev.startCall 0, Ev.startCall 1]).notif :=
  ⟨c10_set_state_frame.1 5 initAssistant AState.idle rfl,
   c10_set_state_frame.2 3000 [Ev.startCall 0, Ev.startCall 1]⟩

/-! ### C7: ProcessingCommand is only reachable through ListeningForCommand
with a non-empty buffer

The machine is in PROCESSING_COMMAND only transiently inside
`_process_command`, so the property is read off the notification log: any
appearance of PROCESSING_COMMAND among the notified states traces back to a
step that began in LISTENING_FOR_COMMAND with a non-empty command buffer. -/

/-- A state notified by `_set_state` is either an old notification or the
state just set. -/
theorem mem_notif_setState (x : AState) (now : Nat) (a : Assistant) (ns : AState)
    (h : x ∈ (setState now a ns).notif) : x ∈ a.notif ∨ x = ns := by
  unfold setState at h
  by_cases hs : a.state = ns
  · rw [if_pos hs] at h
    exact Or.inl h
  · rw [if_neg hs] at h
    by_cases hns : ns = AState.listeningForCommand
    · rw [if_pos hns] at h
      simp only [List.mem_append, List.mem_singleton] at h
      exact h
    · rw [if_neg hns] at h
      simp only [List.mem_append, List.mem_singleton] at h
      exact h

/-- `_process_command` notifies PROCESSING_COMMAND only when the command
buffer is non-empty (assistant.py lines 125-130). -/
theorem processing_notif_processCommand (now : Nat) (tr : String)
    (hr : HandlerResult) (a : Assistant)
    (h : AState.processingCommand ∈ (processCommand now tr hr a).notif) :
    AState.processingCommand ∈ a.notif ∨ a.cmdBuf ≠ [] := by
  by_cases hbuf : a.cmdBuf = []
  · unfold processCommand at h
    rw [if_pos hbuf] at h
    rcases mem_notif_setState _ _ _ _ h with h1 | h1
    · exact Or.inl h1
    · exact absurd h1 (by decide)
  · exact Or.inr hbuf

/-- While listening for a command, a PROCESSING_COMMAND notification can only
come from `_process_command` on a non-empty buffer. -/
theorem processing_notif_handleCommandAudio (sil now chunk : Nat)
    (isSpeech : Bool) (tr : String) (hr : HandlerResult) (a : Assistant)
    (h : AState.processingCommand ∈
      (handleCommandAudio sil now chunk isSpeech tr hr a).notif) :
    AState.processingCommand ∈ a.notif ∨ a.cmdBuf ≠ [] := by
  unfold handleCommandAudio at h
  by_cases h1 : isSpeech = true
  · rw [if_pos h1] at h
    exact Or.inl h
  · rw [if_neg h1] at h
    by_cases h2 : a.speechStarted = true
    · rw [if_pos h2] at h
      by_cases h3 : sil < now - a.lastSpeechTime
      · rw [if_pos h3] at h
        exact processing_notif_processCommand now tr hr a h
      · rw [if_neg h3] at h
        exact Or.inl h
    · rw [if_neg h2] at h
      by_cases h4 : 10000 < now - a.lastSpeechTime
      · rw [if_pos h4] at h
        rcases mem_notif_setState _ _ _ _ h with h5 | h5
        · exact Or.inl h5
        · exact absurd h5 (by decide)
      · rw [if_neg h4] at h
        exact Or.inl h

/-- One-step origin of a PROCESSING_COMMAND notification: it was already in
the log, or the step started in LISTENING_FOR_COMMAND with a non-empty
command buffer. -/
theorem step_processing_notif (sil : Nat) (a : Assistant) (e : Ev)
    (h : AState.processingCommand ∈ (stepAssistant sil a e).notif) :
    AState.processingCommand ∈ a.notif ∨
      (a.state = AState.listeningForCommand ∧ a.cmdBuf ≠ []) := by
  cases e with
  | chunkEv chunk isSpeech now tr hr =>
    replace h : AState.processingCommand ∈
        (processAudioChunk sil now chunk isSpeech tr hr a).notif := h
    unfold processAudioChunk at h
    split at h
    · exact Or.inl h
    · exact Or.inl h
    · rename_i hst
      rcases processing_notif_handleCommandAudio sil now chunk isSpeech tr hr a h
        with h1 | h1
      · exact Or.inl h1
      · exact Or.inr ⟨hst, h1⟩
    · exact Or.inl h
    · replace h : AState.processingCommand ∈ (handleBargeIn now isSpeech a).notif := h
      unfold handleBargeIn at h
      by_cases h1 : isSpeech = true
      · rw [if_pos h1] at h
        rcases mem_notif_setState _ _ _ _ h with h2 | h2
        · exact Or.inl h2
        · exact absurd h2 (by decide)
      · rw [if_neg h1] at h
        exact Or.inl h
  | wakeDetected now =>
    replace h : AState.processingCommand ∈ (onWakeWordDetected now a).notif := h
    unfold onWakeWordDetected at h
    by_cases h1 : a.state = AState.listeningForWakeWord
    · rw [if_pos h1] at h
      rcases mem_notif_setState _ _ _ _ h with h2 | h2
      · exact Or.inl h2
      · exact absurd h2 (by decide)
    · rw [if_neg h1] at h
      exact Or.inl h
  | startCall now =>
    replace h : AState.processingCommand ∈ (startAssistant now a).notif := h
    unfold startAssistant at h
    by_cases h1 : a.state = AState.idle
    · rw [if_pos h1] at h
      rcases mem_notif_setState _ _ _ _ h with h2 | h2
      · exact Or.inl h2
      · exact absurd h2 (by decide)
    · rw [if_neg h1] at h
      exact Or.inl h
  | stopCall now =>
    replace h : AState.processingCommand ∈ (stopAssistant now a).notif := h
    unfold stopAssistant at h
    rcases mem_notif_setState _ _ _ _ h with h2 | h2
    · exact Or.inl h2
    · exact absurd h2 (by decide)
  | speakFinished now =>
    replace h : AState.processingCommand ∈ (onSpeakFinished now a).notif := h
    unfold onSpeakFinished at h
    dsimp only at h
    by_cases h1 : a.state = AState.speaking
    · rw [if_pos h1] at h
      rcases mem_notif_setState _ _ _ _ h with h2 | h2
      · exact Or.inl h2
      · exact absurd h2 (by decide)
    · rw [if_neg h1] at h
      exact Or.inl h

/-- C7: starting from Idle, no sequence of external events (audio chunks,
wake-word detections, start/stop calls, collaborator results) brings the
machine into ProcessingCommand without first passing through
ListeningForCommand with a non-empty captured command buffer: whenever the
run has notified PROCESSING_COMMAND, there is an earlier point at which the
machine's state was LISTENING_FOR_COMMAND with a non-empty buffer. -/
theorem c7_processing_requires_listening (sil : Nat) (evs : List Ev)
    (h : AState.processingCommand ∈ (runAssistant sil evs).notif) :
    ∃ n, n < evs.length ∧
      (runAssistant sil (evs.take n)).state = AState.listeningForCommand ∧
      (runAssistant sil (evs.take n)).cmdBuf ≠ [] := by
  induction evs using List.reverseRecOn with
  | nil =>
    simp [runAssistant, initAssistant] at h
  | append_singleton xs e ih =>
    rw [runAssistant_append] at h
    rcases step_processing_notif sil (runAssistant sil xs) e h with h1 | ⟨h2, h3⟩
    · obtain ⟨n, hn, hs, hb⟩ := ih h1
      refine ⟨n, ?_, ?_, ?_⟩
      · simp only [List.length_append, List.length_singleton]
        omega
      · rw [List.take_append_of_le_length (by omega)]
        exact hs
      · rw [List.take_append_of_le_length (by omega)]
        exact hb
    · refine ⟨xs.length, ?_, ?_, ?_⟩
      · simp only [List.length_append, List.length_singleton]
        omega
      · rw [List.take_left]
        exact h2
      · rw [List.take_left]
        exact h3

/-- Concrete run for the C7 witness: start, wake word, one speech chunk, then
a silent chunk after a long gap that completes the command. -/
def c7Evs : List Ev :=
  [Ev.startCall 0, Ev.wakeDetected 0,
   Ev.chunkEv 7 true 1000 "" (HandlerResult.ok none),
   Ev.chunkEv 8 false 9000 "hello" (HandlerResult.ok (some "done"))]

/-- Witness for C7: the concrete run does notify PROCESSING_COMMAND, and an
earlier prefix indeed sits in LISTENING_FOR_COMMAND with a non-empty
buffer. -/
theorem c7_processing_requires_listening_witness :
    AState.processingCommand ∈ (runAssistant 3000 c7Evs).notif ∧
    ∃ n, n < c7Evs.length ∧
      (runAssistant 3000 (c7Evs.take n)).state = AState.listeningForCommand ∧
      (runAssistant 3000 (c7Evs.take n)).cmdBuf ≠ [] :=
  ⟨by decide, c7_processing_requires_listening 3000 c7Evs (by decide)⟩

end AerionHome
